import Mathlib

/-!
Verification development for the elevator simulator in `script.js`
(the `LiftSim` module of the repository TheOnlyLift).

The simulation core is shallowly embedded here:
* JS numbers are modelled as rationals (`ℚ`); all arithmetic in the core
  is exact decimal arithmetic on small constants, so `ℚ` matches the
  source's real-number semantics.
* Wall-clock reads (`nowMs()`) are passed in explicitly as a `now`
  parameter; `Math.random()` outcomes are passed in as oracle parameters
  (a Bool for a Bernoulli draw, a `ℚ` for a uniform draw, a `String` for
  a generated id).
* DOM, audio, logging and the `setTimeout`-based auto-close timer are
  presentation side effects with no bearing on the modelled state; they
  are elided.  The `lift:arrived` notification, which the spec treats as
  part of the core contract, is modelled as an explicit event output of
  `Elevator.step`.
-/

/-- JS helper `clamp(v, a, b) = Math.max(a, Math.min(b, v))` on numbers. -/
def clamp (v a b : ℚ) : ℚ := max a (min b v)

/-- Integer version of `clamp` (used where the source clamps floor indices). -/
def iclamp (v a b : ℤ) : ℤ := max a (min b v)

/-- JS `x || y` on numbers: `y` when `x` is falsy (`0`), else `x`. -/
def jsOr (x y : ℚ) : ℚ := if x = 0 then y else x

/-- JS `Math.sign` on numbers: `-1`, `0` or `1`. -/
def qsign (x : ℚ) : ℚ := if x < 0 then -1 else if x = 0 then 0 else 1

/-- Elevator state-machine labels (the `EState` enumeration). -/
inductive EState
  | IDLE | MOVING | ARRIVED | DOOR_OPEN | DOOR_CLOSED | EMERGENCY
deriving DecidableEq, Repr

/-- Notifications the core emits for external consumers; only the
arrival notification (`dispatch('lift:arrived', {floor})`) matters for the
verified contract. -/
inductive LiftEvent
  | arrived (floor : ℤ)
deriving DecidableEq, Repr

/-- Configuration (`DEFAULT_CFG` merged with overrides); `physics` is
flattened into `accelLimit` / `brakeLimit`. -/
structure Cfg where
  floors : ℤ
  initialFloor : ℤ
  passengerWeightKg : ℚ
  maxSpeedMps : ℚ
  floorHeightMeters : ℚ
  accelLimit : ℚ
  brakeLimit : ℚ
  npcTrafficFactor : ℚ
  randomEventRatePerSec : ℚ
  doorActionCooldownMs : ℚ
  doorAutoCloseMs : ℚ
deriving DecidableEq, Repr

/-- `DEFAULT_CFG` from the source. -/
def defaultCFG : Cfg :=
  { floors := 18
    initialFloor := 0
    passengerWeightKg := 75
    maxSpeedMps := 2.5
    floorHeightMeters := 3.0
    accelLimit := 1.5
    brakeLimit := 2.0
    npcTrafficFactor := 0.02
    randomEventRatePerSec := 0.00045
    doorActionCooldownMs := 900
    doorAutoCloseMs := 10000 }

/-- The `Elevator` class state.  The `_autoCloseTimer` handle is a
presentation-side `setTimeout` token and is elided. -/
structure Elevator where
  floors : ℤ
  floorHeight : ℚ
  position : ℚ
  velocity : ℚ
  acceleration : ℚ
  targetFloor : Option ℤ
  queue : List ℤ
  state : EState
  doorsOpen : Bool
  doorProgress : ℚ
  doorSpeed : ℚ
  loadKg : ℚ
  playerInside : Bool
  lastDoorActionMs : ℚ
  doorCooldownMs : ℚ
  overloadLimitKg : ℚ
  arrivalFloor : Option ℤ
  componentsDoor : ℚ
  componentsMotor : ℚ
  autoCloseMs : ℚ
  arrivalTs : ℚ
  holdDoor : Bool
  lastManualActionKey : Option String
  lastManualActionTs : ℚ
deriving DecidableEq, Repr

namespace Elevator

/-- The `Elevator` constructor (`new Elevator(floors, initialFloor)`).
`holdDoor` is a property first created by the door-jam handler; it starts
absent (falsy), modelled as `false`. -/
def init (cfg : Cfg) (floors initialFloor : ℤ) : Elevator :=
  { floors := floors
    floorHeight := cfg.floorHeightMeters
    position := (iclamp initialFloor 0 (floors - 1) : ℚ) * cfg.floorHeightMeters
    velocity := 0
    acceleration := 0
    targetFloor := none
    queue := []
    state := EState.IDLE
    doorsOpen := false
    doorProgress := 0
    doorSpeed := 0.9
    loadKg := 0
    playerInside := false
    lastDoorActionMs := 0
    doorCooldownMs := jsOr cfg.doorActionCooldownMs 900
    overloadLimitKg := 1800
    arrivalFloor := none
    componentsDoor := 100
    componentsMotor := 100
    autoCloseMs := jsOr cfg.doorAutoCloseMs 10000
    arrivalTs := 0
    holdDoor := false
    lastManualActionKey := none
    lastManualActionTs := 0 }

/-- `floorToMeters(f)`: clamp the floor index and convert to meters.
Callers always pass integers, so `Math.floor` is the identity. -/
def floorToMeters (e : Elevator) (f : ℤ) : ℚ :=
  (iclamp f 0 (e.floors - 1) : ℚ) * e.floorHeight

/-- `metersToFloor(m) = Math.round(m / floorHeight)`; `Math.round` is
`⌊x + 1/2⌋`, which is Mathlib's `round`. -/
def metersToFloor (e : Elevator) (m : ℚ) : ℤ :=
  round (m / e.floorHeight)

/-- `requestFloor(f)`: set as target when idle with an empty queue,
else append to the queue unless it duplicates the queue or the target.
The `lift:call` dispatch is an elided notification. -/
def requestFloor (e : Elevator) (f : ℤ) : Elevator :=
  let ff := iclamp f 0 (e.floors - 1)
  if e.targetFloor = none ∧ e.queue = [] then { e with targetFloor := some ff }
  else if ff ∉ e.queue ∧ e.targetFloor ≠ some ff then { e with queue := e.queue ++ [ff] }
  else e

/-- `requestExternal(f, who)`: identical state change to `requestFloor`;
`who` only feeds the elided `lift:call` notification. -/
def requestExternal (e : Elevator) (f : ℤ) : Elevator :=
  let ff := iclamp f 0 (e.floors - 1)
  if e.targetFloor = none ∧ e.queue = [] then { e with targetFloor := some ff }
  else if ff ∉ e.queue ∧ e.targetFloor ≠ some ff then { e with queue := e.queue ++ [ff] }
  else e

/-- `openDoors()`: refused when door health is below 5.  The
unconditional auto-close `setTimeout` is a timer side effect, elided. -/
def openDoors (e : Elevator) (now : ℚ) : Bool × Elevator :=
  if e.componentsDoor < 5 then (false, e)
  else (true, { e with doorsOpen := true, state := EState.DOOR_OPEN, arrivalTs := now })

/-- `closeDoors()`: refused when door health is below 5; clears the
(elided) auto-close timer. -/
def closeDoors (e : Elevator) : Bool × Elevator :=
  if e.componentsDoor < 5 then (false, e)
  else (true, { e with doorsOpen := false, state := EState.DOOR_CLOSED })

/-- `enterPlayer(weight)`.  The two `nowMs()` reads (cooldown check and
timestamp) are modelled as the single instant `now`. -/
def enterPlayer (e : Elevator) (weight now : ℚ) : Bool × Elevator :=
  if ¬ e.doorsOpen ∨ e.doorProgress < 0.9 then (false, e)
  else if e.playerInside then (false, e)
  else if now - e.lastDoorActionMs < e.doorCooldownMs then (false, e)
  else if e.loadKg + weight > e.overloadLimitKg then (false, e)
  else (true, { e with loadKg := e.loadKg + weight, playerInside := true,
                       lastDoorActionMs := now })

/-- `exitPlayer(weight)`. -/
def exitPlayer (e : Elevator) (weight now : ℚ) : Bool × Elevator :=
  if ¬ e.doorsOpen ∨ e.doorProgress < 0.9 then (false, e)
  else if ¬ e.playerInside then (false, e)
  else if now - e.lastDoorActionMs < e.doorCooldownMs then (false, e)
  else (true, { e with loadKg := max 0 (e.loadKg - weight), playerInside := false,
                       lastDoorActionMs := now })

end Elevator

/-- The argmin loop shared by `popNextTarget` and `World.assignCalls`:
scan a list of distances keeping the first strictly smaller one
(`bestDist` starts at `Infinity`, modelled as `none`). -/
def firstMinGo : List ℚ → ℕ → ℕ → Option ℚ → ℕ
  | [], _, b, _ => b
  | d :: rest, i, b, bd =>
    match bd with
    | none => firstMinGo rest (i + 1) i (some d)
    | some m => if d < m then firstMinGo rest (i + 1) i (some d)
                else firstMinGo rest (i + 1) b (some m)

/-- Index of the first minimal element of a distance list (the result of
the source's `bestIdx` loop); `0` on the empty list. -/
def firstMinIdx (l : List ℚ) : ℕ := firstMinGo l 0 0 none

namespace Elevator

/-- `popNextTarget()`: pop the queued floor nearest to the current floor
(first occurrence wins on ties) into `targetFloor`. -/
def popNextTarget (e : Elevator) : Elevator :=
  if e.targetFloor ≠ none then e
  else
    match e.queue with
    | [] => e
    | q0 :: _ =>
      let cur := e.metersToFloor e.position
      let b := firstMinIdx (e.queue.map (fun q => |((q - cur : ℤ) : ℚ)|))
      { e with targetFloor := some (e.queue.getD b q0), queue := e.queue.eraseIdx b }

/-- The door-progress update at the top of `step(dt)`: door speed scales
with door health and progress moves toward 1 (open) or 0 (closed),
clamped to `[0, 1]`. -/
def doorPhase (e : Elevator) (dt : ℚ) : Elevator :=
  let ds := (1 / e.doorSpeed) * (0.5 + (e.componentsDoor / 100) * 0.8)
  if e.doorsOpen then { e with doorProgress := clamp (e.doorProgress + ds * dt) 0 1 }
  else { e with doorProgress := clamp (e.doorProgress - ds * dt) 0 1 }

/-- The acceleration command of `step(dt)` toward target floor `t`:
brake inside braking distance (+0.03 m margin), else a proportional
speed controller clamped to `[-brakeLimit, accelLimit]`. -/
def motionAccel (cfg : Cfg) (e : Elevator) (t : ℤ) : ℚ :=
  let targetPos := e.floorToMeters t
  let dist := targetPos - e.position
  let dir := qsign (jsOr dist 1)
  let absDist := |dist|
  let brakingDist := e.velocity * e.velocity / (2 * cfg.brakeLimit + 0.000001)
  if absDist ≤ brakingDist + 0.03 then
    - cfg.brakeLimit * qsign (jsOr e.velocity dir)
  else
    clamp ((cfg.maxSpeedMps * dir - e.velocity) * 1.8) (- cfg.brakeLimit) cfg.accelLimit

/-- The velocity after the integration step of `step(dt)` toward `t`
(acceleration applied, then clamped to `±maxSpeed`). -/
def motionVel (cfg : Cfg) (e : Elevator) (dt : ℚ) (t : ℤ) : ℚ :=
  clamp (e.velocity + e.motionAccel cfg t * dt) (- cfg.maxSpeedMps) cfg.maxSpeedMps

/-- `step(dt)`: door progression, emergency freeze, door/motion
interlock, target selection, idle damping or motion integration, and
arrival detection (snap, open doors, emit `lift:arrived`). -/
def step (cfg : Cfg) (e0 : Elevator) (dt now : ℚ) : Elevator × List LiftEvent :=
  let e := e0.doorPhase dt
  if e.state = EState.EMERGENCY then (e, [])
  else if e.doorsOpen ∧ 0.05 < e.doorProgress then
    ({ e with velocity := 0, acceleration := 0, state := EState.DOOR_OPEN }, [])
  else
    let e := if e.targetFloor = none ∧ e.queue ≠ [] then e.popNextTarget else e
    match e.targetFloor with
    | none =>
      let acc := - e.velocity * 1.8
      let vel := e.velocity + acc * dt
      let pos := e.position + vel * dt
      if |vel| < 0.01 then
        ({ e with acceleration := 0, velocity := 0, position := pos,
                  state := EState.IDLE }, [])
      else
        ({ e with acceleration := acc, velocity := vel, position := pos }, [])
    | some t =>
      let acc := e.motionAccel cfg t
      let vel := clamp (e.velocity + acc * dt) (- cfg.maxSpeedMps) cfg.maxSpeedMps
      let pos := e.position + vel * dt
      let targetPos := e.floorToMeters t
      let absDist := |targetPos - e.position|
      let e1 := { e with acceleration := acc, velocity := vel, position := pos,
                         state := EState.MOVING }
      if absDist < 0.03 ∧ |vel| < 0.06 then
        let e2 := { e1 with position := targetPos, velocity := 0, acceleration := 0,
                            arrivalFloor := some t, targetFloor := none,
                            state := EState.ARRIVED }
        ((e2.openDoors now).2, [LiftEvent.arrived t])
      else (e1, [])

/-- The elevator-state effect of the `door_jam` event handler: degrade
door health by `amt` (= `Math.round(rand(6, 18))`) and force the doors
fully open or fully closed (the `Math.random() < 0.5` branch is the
`forcedOpen` oracle). -/
def doorJam (e : Elevator) (amt : ℚ) (forcedOpen : Bool) : Elevator :=
  let e := { e with componentsDoor := max 0 (e.componentsDoor - amt) }
  if forcedOpen then
    { e with doorsOpen := true, doorProgress := 1, state := EState.DOOR_OPEN,
             holdDoor := true }
  else
    { e with doorsOpen := false, doorProgress := 0, state := EState.DOOR_CLOSED,
             holdDoor := true }

/-- Which component an `auto_repair` event restores. -/
inductive Comp | door | motor
deriving DecidableEq, Repr

/-- The elevator-state effect of the `auto_repair` event handler:
restore the component's health by `amt` (= `Math.round(rand(12, 40))`),
clamped to `[0, 100]`, and lift the held-door override. -/
def autoRepair (e : Elevator) (c : Comp) (amt : ℚ) : Elevator :=
  match c with
  | Comp.door =>
    { e with componentsDoor := clamp (e.componentsDoor + amt) 0 100, holdDoor := false }
  | Comp.motor =>
    { e with componentsMotor := clamp (e.componentsMotor + amt) 0 100, holdDoor := false }

/-- The elevator effect of the NPC boarding branch of
`World.stepBoarding`: add weight `w` (= `50 + Math.random() * 90`) when
it stays under the overload limit and request a random destination
`destF`; always stamp `lastDoorActionMs`. -/
def npcBoard (e : Elevator) (w : ℚ) (destF : ℤ) (now : ℚ) : Elevator :=
  if e.loadKg + w < e.overloadLimitKg then
    { ({ e with loadKg := e.loadKg + w }).requestFloor destF with lastDoorActionMs := now }
  else { e with lastDoorActionMs := now }

/-- The elevator effect of the NPC exit branch of `World.stepBoarding`:
remove `min(loadKg, 20 + r * 80)` kilograms and stamp
`lastDoorActionMs`. -/
def npcExit (e : Elevator) (r now : ℚ) : Elevator :=
  let out := min e.loadKg (20 + r * 80)
  { e with loadKg := max 0 (e.loadKg - out), lastDoorActionMs := now }

end Elevator

/-- Serialized form of an `Elevator` (`Elevator.serialize()`).  On a
snapshot produced by `serialize` every field is present and well typed,
so the `??` / `||` defaulting in `Elevator.deserialize` collapses to a
direct read; the structure records exactly the serialized fields. -/
structure ElevSnap where
  pos : ℚ
  vel : ℚ
  acc : ℚ
  target : Option ℤ
  queue : List ℤ
  doorsOpen : Bool
  doorProg : ℚ
  loadKg : ℚ
  playerInside : Bool
  componentsDoor : ℚ
  componentsMotor : ℚ
  state : EState
  arrivalFloor : Option ℤ
  lastManualActionKey : Option String
  lastManualActionTs : ℚ
  autoCloseMs : ℚ
deriving DecidableEq, Repr

namespace Elevator

/-- `serialize()`. -/
def serialize (e : Elevator) : ElevSnap :=
  { pos := e.position
    vel := e.velocity
    acc := e.acceleration
    target := e.targetFloor
    queue := e.queue
    doorsOpen := e.doorsOpen
    doorProg := e.doorProgress
    loadKg := e.loadKg
    playerInside := e.playerInside
    componentsDoor := e.componentsDoor
    componentsMotor := e.componentsMotor
    state := e.state
    arrivalFloor := e.arrivalFloor
    lastManualActionKey := e.lastManualActionKey
    lastManualActionTs := e.lastManualActionTs
    autoCloseMs := e.autoCloseMs }

/-- `Elevator.deserialize(obj, floors, initial)`: build a fresh elevator
and overwrite the serialized fields.  `doorSpeed`, cooldowns,
`lastDoorActionMs` and `arrivalTs` are not serialized and keep their
constructor values. -/
def deserialize (cfg : Cfg) (snap : ElevSnap) (floors initialFloor : ℤ) : Elevator :=
  let e := Elevator.init cfg floors initialFloor
  { e with position := snap.pos
           velocity := snap.vel
           acceleration := snap.acc
           targetFloor := snap.target
           queue := snap.queue
           doorsOpen := snap.doorsOpen
           doorProgress := snap.doorProg
           loadKg := snap.loadKg
           playerInside := snap.playerInside
           componentsDoor := snap.componentsDoor
           componentsMotor := snap.componentsMotor
           state := snap.state
           arrivalFloor := snap.arrivalFloor
           lastManualActionKey := snap.lastManualActionKey
           lastManualActionTs := snap.lastManualActionTs
           autoCloseMs := snap.autoCloseMs }

end Elevator

/-- Call direction (`'up'` / `'down'`). -/
inductive Dir | up | down
deriving DecidableEq, Repr

/-- Call lifecycle status (`'pending'` / `'assigned'` / `'served'`). -/
inductive CStatus | pending | assigned | served
deriving DecidableEq, Repr

/-- A call is live while pending or assigned. -/
def liveS : CStatus → Bool
  | CStatus.pending => true
  | CStatus.assigned => true
  | CStatus.served => false

/-- An external call record.  `assignedTs` / `servedTs` are properties
added on transition; modelled as `Option`, initially `none`. -/
structure Call where
  id : String
  floor : ℤ
  dir : Dir
  who : String
  ts : ℚ
  status : CStatus
  assignedTs : Option ℚ
  servedTs : Option ℚ
deriving DecidableEq, Repr

instance : Inhabited Call :=
  ⟨{ id := "", floor := 0, dir := Dir.up, who := "", ts := 0,
     status := CStatus.pending, assignedTs := none, servedTs := none }⟩

/-- An NPC traffic source record. -/
structure NPC where
  id : String
  nextActionMs : ℚ
  busyUntil : ℚ
deriving DecidableEq, Repr

/-- Kinds of scheduled mechanical events. -/
inductive EvKind | door_jam | auto_repair
deriving DecidableEq, Repr

/-- A scheduled future event (`{ts, type, payload}`); the payload is the
component name of an auto-repair, when present. -/
structure Scheduled where
  ts : ℚ
  kind : EvKind
  comp : Option String
deriving DecidableEq, Repr

/-- The rate-limiter window state of `World.shouldTriggerEvent`
(`this.eventWindow = {start, count, cap}`). -/
structure TrigState where
  start : ℚ
  count : ℕ
  cap : ℕ
deriving DecidableEq, Repr

namespace TrigState

/-- `World.shouldTriggerEvent(ratePerSec, dt)` as a transition on the
window state.  `hit` is the oracle outcome of
`Math.random() < ratePerSec * dt`. -/
def shouldTriggerEvent (s : TrigState) (now : ℚ) (hit : Bool) : TrigState × Bool :=
  let s := if 60000 < now - s.start then { s with start := now, count := 0 } else s
  if s.cap ≤ s.count then (s, false)
  else if hit then ({ s with count := s.count + 1 }, true)
  else (s, false)

end TrigState

/-- Run `shouldTriggerEvent` over a trace of calls (each a timestamp
with its Bernoulli-oracle outcome), returning the final window state and
the per-call results paired with their timestamps. -/
def runTrigger (s : TrigState) : List (ℚ × Bool) → TrigState × List (ℚ × Bool)
  | [] => (s, [])
  | (now, hit) :: rest =>
    let r := s.shouldTriggerEvent now hit
    let rec' := runTrigger r.1 rest
    (rec'.1, (now, r.2) :: rec'.2)

/-- The debounce record `this.lastPlayerCall = {floor, dir, ts}`. -/
structure LastCall where
  floor : Option ℤ
  dir : Option Dir
  ts : ℚ
deriving DecidableEq, Repr

/-- The `World` class state. -/
structure World where
  elev : Elevator
  playerFloor : ℤ
  playerRequestedFloor : Option ℤ
  calls : List Call
  npcs : List NPC
  scheduled : List Scheduled
  logs : List String
  eventWindow : TrigState
  lastPlayerCall : LastCall
deriving DecidableEq, Repr

namespace World

/-- The `World` constructor.  `initNPCs` draws one random initial delay
per NPC; the draws are supplied by the oracle `npcDelay`. -/
def init (cfg : Cfg) (now : ℚ) (npcDelay : ℕ → ℚ) : World :=
  { elev := Elevator.init cfg cfg.floors cfg.initialFloor
    playerFloor := cfg.initialFloor
    playerRequestedFloor := none
    calls := []
    npcs := (List.range (max 0 (round ((cfg.floors : ℚ) * cfg.npcTrafficFactor))).toNat).map
      (fun i => { id := "NPC-" ++ toString (i + 1), nextActionMs := now + npcDelay i,
                  busyUntil := 0 })
    scheduled := []
    logs := []
    eventWindow := { start := now, count := 0, cap := 6 }
    lastPlayerCall := { floor := none, dir := none, ts := 0 } }

/-- `playerCall(floor, dir)`: debounce the tracked passenger's repeats
within 1800 ms, then reject when ANY live call at the same
`(floor, dir)` exists, else append a pending call.  `id` is the oracle
for the random call id; logging and the `lift:call` dispatch are
elided. -/
def playerCall (w : World) (floor : ℤ) (dir : Dir) (now : ℚ) (id : String) :
    Bool × World :=
  if w.lastPlayerCall.floor = some floor ∧ w.lastPlayerCall.dir = some dir ∧
      now - jsOr w.lastPlayerCall.ts 0 < 1800 then
    (false, w)
  else
    let w := { w with lastPlayerCall := { floor := some floor, dir := some dir, ts := now } }
    if w.calls.any (fun c => decide (c.floor = floor ∧ c.dir = dir ∧ liveS c.status)) then
      (false, w)
    else
      (true, { w with calls := w.calls ++
        [{ id := id, floor := floor, dir := dir, who := "Passenger", ts := now,
           status := CStatus.pending, assignedTs := none, servedTs := none }] })

/-- `requestExternalCall(floor, dir, who)`: reject only when a live call
with the same `(floor, dir, who)` exists, else append a pending call. -/
def requestExternalCall (w : World) (floor : ℤ) (dir : Dir) (who : String) (now : ℚ)
    (id : String) : World :=
  if w.calls.any
      (fun c => decide (c.floor = floor ∧ c.dir = dir ∧ liveS c.status ∧ c.who = who)) then
    w
  else
    { w with calls := w.calls ++
      [{ id := id, floor := floor, dir := dir, who := who, ts := now,
         status := CStatus.pending, assignedTs := none, servedTs := none }] }

/-- The pending subset of the call list, in list order. -/
def pendingOf (w : World) : List Call :=
  w.calls.filter (fun c => decide (c.status = CStatus.pending))

/-- Absolute floor distance of a call from the elevator's current
floor (`Math.abs(pending[i].floor - cur)`). -/
def callDist (cur : ℤ) (c : Call) : ℚ := |((c.floor - cur : ℤ) : ℚ)|

/-- The pending call the dispatcher picks: the one at minimal absolute
floor distance, first match winning (the source's `bestIdx` loop). -/
def assignChosen (w : World) : Call :=
  let cur := w.elev.metersToFloor w.elev.position
  (w.pendingOf).getD (firstMinIdx ((w.pendingOf).map (callDist cur))) default

/-- `this.calls.findIndex(c => c.id === chosen.id)` followed by the
status/timestamp mutation: update the first call with the given id. -/
def markAssignedById : List Call → String → ℚ → List Call
  | [], _, _ => []
  | c :: rest, id, now =>
    if c.id = id then { c with status := CStatus.assigned, assignedTs := some now } :: rest
    else c :: markAssignedById rest id now

/-- `assignCalls()`: no-op when the elevator has a target; else pick the
nearest pending call, mark it assigned and push its floor via
`requestExternal`. -/
def assignCalls (w : World) (now : ℚ) : World :=
  if w.elev.targetFloor ≠ none then w
  else if w.pendingOf = [] then w
  else
    let chosen := w.assignChosen
    { w with calls := markAssignedById w.calls chosen.id now
             elev := w.elev.requestExternal chosen.floor }

/-- `markCallServedAtFloor(floor)`: every live call at the floor becomes
served. -/
def markCallServedAtFloor (w : World) (floor : ℤ) (now : ℚ) : World :=
  { w with calls := w.calls.map (fun c =>
      if c.floor = floor ∧ liveS c.status then
        { c with status := CStatus.served, servedTs := some now }
      else c) }

end World

/-- Serialized form of a `World` (`World.serialize()`). -/
structure WorldSnap where
  elev : ElevSnap
  playerFloor : ℤ
  playerRequestedFloor : Option ℤ
  calls : List Call
  scheduled : List Scheduled
  npcs : List NPC
  logs : List String
  ts : ℚ
deriving DecidableEq, Repr

namespace World

/-- `serialize()`. -/
def serialize (w : World) (now : ℚ) : WorldSnap :=
  { elev := w.elev.serialize
    playerFloor := w.playerFloor
    playerRequestedFloor := w.playerRequestedFloor
    calls := w.calls
    scheduled := w.scheduled
    npcs := w.npcs.map (fun n =>
      { id := n.id, nextActionMs := n.nextActionMs, busyUntil := n.busyUntil })
    logs := w.logs.take 200
    ts := now }

/-- `World.deserialize(obj)`: build a fresh world (its `initNPCs` draws
come from `npcDelay`) then overwrite the serialized fields; each NPC's
timers fall back (`||`) to a fresh draw `fresh i` / to `0` when falsy. -/
def deserialize (cfg : Cfg) (snap : WorldSnap) (now : ℚ) (npcDelay : ℕ → ℚ)
    (fresh : ℕ → ℚ) : World :=
  let w := World.init cfg now npcDelay
  { w with elev := Elevator.deserialize cfg snap.elev cfg.floors cfg.initialFloor
           playerFloor := snap.playerFloor
           playerRequestedFloor := snap.playerRequestedFloor
           calls := snap.calls
           scheduled := snap.scheduled
           npcs := snap.npcs.mapIdx (fun i n =>
             { id := n.id, nextActionMs := jsOr n.nextActionMs (now + fresh i),
               busyUntil := jsOr n.busyUntil 0 })
           logs := snap.logs }

end World

/-- Structural invariant of the elevator maintained by every in-session
operation: `doorSpeed` is the constructor constant, door health stays in
`[0, 100]`, door progress stays in `[0, 1]`, and no operation ever
enters the `EMERGENCY` state (nothing in the source assigns it). -/
def EInv (e : Elevator) : Prop :=
  e.doorSpeed = 0.9 ∧ 0 ≤ e.componentsDoor ∧ e.componentsDoor ≤ 100 ∧
  0 ≤ e.doorProgress ∧ e.doorProgress ≤ 1 ∧ e.state ≠ EState.EMERGENCY

/-- In-session reachability of an elevator state: constructed by
`new Elevator(...)` and closed under every operation of the source that
mutates elevator state (commands, the tick, the door-jam / auto-repair
event effects and the NPC boarding churn).  Oracle inputs (`now`, random
draws) are arbitrary; `dt` is nonnegative as in the driving loop, and a
door jam degrades health by `Math.round(rand(6, 18)) ≥ 0`. -/
inductive EReach (cfg : Cfg) : Elevator → Prop
  | init (floors initialFloor : ℤ) : EReach cfg (Elevator.init cfg floors initialFloor)
  | requestFloor {e} (f : ℤ) : EReach cfg e → EReach cfg (e.requestFloor f)
  | requestExternal {e} (f : ℤ) : EReach cfg e → EReach cfg (e.requestExternal f)
  | openDoors {e} (now : ℚ) : EReach cfg e → EReach cfg (e.openDoors now).2
  | closeDoors {e} : EReach cfg e → EReach cfg e.closeDoors.2
  | enterPlayer {e} (w now : ℚ) : EReach cfg e → EReach cfg (e.enterPlayer w now).2
  | exitPlayer {e} (w now : ℚ) : EReach cfg e → EReach cfg (e.exitPlayer w now).2
  | step {e} (dt now : ℚ) : 0 ≤ dt → EReach cfg e →
      EReach cfg (Elevator.step cfg e dt now).1
  | doorJam {e} (amt : ℚ) (forcedOpen : Bool) : 0 ≤ amt → EReach cfg e →
      EReach cfg (e.doorJam amt forcedOpen)
  | autoRepair {e} (c : Elevator.Comp) (amt : ℚ) : EReach cfg e →
      EReach cfg (e.autoRepair c amt)
  | npcBoard {e} (w : ℚ) (destF : ℤ) (now : ℚ) : EReach cfg e →
      EReach cfg (e.npcBoard w destF now)
  | npcExit {e} (r now : ℚ) : EReach cfg e → EReach cfg (e.npcExit r now)

/-- Two calls compete for the same duplicate-suppression key when they
agree on floor, direction and requester. -/
def sameKey (a b : Call) : Prop := a.floor = b.floor ∧ a.dir = b.dir ∧ a.who = b.who

/-- At most one live call per `(floor, direction, requester)` key. -/
def CallsOK (cs : List Call) : Prop :=
  cs.Pairwise (fun a b => liveS a.status → liveS b.status → ¬ sameKey a b)

/-- In-session reachability of a world state, as far as the call list is
concerned: constructed by `new World()` and closed under the operations
that touch `calls` (`playerCall`, `requestExternalCall`, `assignCalls`,
`markCallServedAtFloor` — the latter two also invoked from the tick) and
under arbitrary mutation of the rest of the state (`other`, which
over-approximates the elevator tick, NPC timers, scheduled events and
logging: none of them touch `calls`).  The randomly generated call ids
(`call-<ms>-<rand>`) are modelled as oracle inputs assumed distinct from
all ids already in the list, which is what the source's
`findIndex`-by-id bookkeeping relies on. -/
inductive WReach (cfg : Cfg) : World → Prop
  | init (now : ℚ) (npcDelay : ℕ → ℚ) : WReach cfg (World.init cfg now npcDelay)
  | playerCall {w} (f : ℤ) (d : Dir) (now : ℚ) (id : String) :
      (∀ c ∈ w.calls, c.id ≠ id) →
      WReach cfg w → WReach cfg (w.playerCall f d now id).2
  | requestExternalCall {w} (f : ℤ) (d : Dir) (who : String) (now : ℚ) (id : String) :
      (∀ c ∈ w.calls, c.id ≠ id) →
      WReach cfg w → WReach cfg (w.requestExternalCall f d who now id)
  | assignCalls {w} (now : ℚ) : WReach cfg w → WReach cfg (w.assignCalls now)
  | markCallServedAtFloor {w} (f : ℤ) (now : ℚ) :
      WReach cfg w → WReach cfg (w.markCallServedAtFloor f now)
  | other {w} (w' : World) : WReach cfg w → w'.calls = w.calls → WReach cfg w'

/-! Concrete states used to instantiate the theorems below. -/

/-- A cabin at rest with doors fully open and 1790 kg of load (10 kg
under the 1800 kg overload limit). -/
def elevNearLimit : Elevator :=
  { Elevator.init defaultCFG 18 0 with doorsOpen := true, doorProgress := 1,
                                       loadKg := 1790 }

/-- A freshly built elevator whose doors a door jam forced fully open
(door health degraded by 10). -/
def elevJammedOpen : Elevator := (Elevator.init defaultCFG 18 0).doorJam 10 true

/-- A cabin exactly at floor 3's coordinate (9 m), at rest, doors
closed, still targeting floor 3: the next tick detects arrival. -/
def elevAtTarget : Elevator :=
  { Elevator.init defaultCFG 18 0 with targetFloor := some 3, position := 9 }

/-- A cabin with doors fully open and an occupant inside. -/
def elevOccupied : Elevator :=
  { Elevator.init defaultCFG 18 0 with doorsOpen := true, doorProgress := 1,
                                       playerInside := true }

/-- A pending call record used to populate test worlds. -/
def mkPending (id : String) (floor : ℤ) (dir : Dir) (who : String) (ts : ℚ) : Call :=
  { id := id, floor := floor, dir := dir, who := who, ts := ts,
    status := CStatus.pending, assignedTs := none, servedTs := none }

/-- A world with two pending calls (floors 5 and 2) and the cabin at
floor 0, for exercising the dispatcher. -/
def worldTwoCalls : World :=
  { World.init defaultCFG 0 (fun _ => 0) with
      calls := [mkPending "a" 5 Dir.up "NPC-1" 0, mkPending "b" 2 Dir.down "NPC-2" 0] }

/-- A world right after the tracked passenger successfully called up at
floor 3. -/
def worldAfterCall : World :=
  ((World.init defaultCFG 0 (fun _ => 0)).playerCall 3 Dir.up 5000 "a").2

/-- A world holding one live NPC call (up at floor 3). -/
def worldNpcCall : World :=
  { World.init defaultCFG 0 (fun _ => 0) with
      calls := [mkPending "a" 3 Dir.up "NPC-1" 0] }

/-- A world with a nontrivial elevator and call list, for the
serialization round trip. -/
def worldRich : World :=
  { World.init defaultCFG 0 (fun _ => 0) with
      elev := { elevNearLimit with position := 7, targetFloor := some 4,
                                   queue := [2, 9], playerInside := true }
      calls := [mkPending "a" 5 Dir.up "NPC-1" 0,
                { mkPending "b" 2 Dir.down "Passenger" 1 with
                    status := CStatus.assigned, assignedTs := some 2 }] }

/-- Reachable counterexample state for the door/target-invariant claim:
from a fresh elevator, request floor 5 (becomes the target), open the
doors, then run one 1/60 s tick.  The tick's door progress
(`13/540 ≈ 0.024`) stays under the `0.05` interlock threshold, so the
motion controller runs with the doors open. -/
def elevDoorOpenAccel : Elevator :=
  (Elevator.step defaultCFG
    (((Elevator.init defaultCFG 18 0).requestFloor 5).openDoors 0).2 (1/60) 0).1

/-- Trigger-call trace defeating a rolling-window reading of the event
cap: six hits late in the fixed window, then a seventh right after the
window resets — seven `true` results within 1001 ms. -/
def trigTrace7 : List (ℚ × Bool) :=
  [(59000, true), (59001, true), (59002, true), (59003, true), (59004, true),
   (59005, true), (60001, true)]

/-! Helper lemmas. -/

theorem clamp01_nonneg (v : ℚ) : 0 ≤ clamp v 0 1 := le_max_left 0 _

theorem clamp01_le_one (v : ℚ) : clamp v 0 1 ≤ 1 :=
  max_le (by norm_num) (min_le_left 1 v)

theorem lt_clamp01 {c v : ℚ} (hc1 : c < 1) (hcv : c < v) : c < clamp v 0 1 :=
  lt_of_lt_of_le (lt_min hc1 hcv) (le_max_right 0 _)

theorem doorPhase_doorsOpen (e : Elevator) (dt : ℚ) :
    (e.doorPhase dt).doorsOpen = e.doorsOpen := by
  unfold Elevator.doorPhase; split <;> rfl

theorem doorPhase_state (e : Elevator) (dt : ℚ) :
    (e.doorPhase dt).state = e.state := by
  unfold Elevator.doorPhase; split <;> rfl

theorem doorPhase_position (e : Elevator) (dt : ℚ) :
    (e.doorPhase dt).position = e.position := by
  unfold Elevator.doorPhase; split <;> rfl

theorem doorPhase_velocity (e : Elevator) (dt : ℚ) :
    (e.doorPhase dt).velocity = e.velocity := by
  unfold Elevator.doorPhase; split <;> rfl

theorem doorPhase_targetFloor (e : Elevator) (dt : ℚ) :
    (e.doorPhase dt).targetFloor = e.targetFloor := by
  unfold Elevator.doorPhase; split <;> rfl

theorem doorPhase_queue (e : Elevator) (dt : ℚ) :
    (e.doorPhase dt).queue = e.queue := by
  unfold Elevator.doorPhase; split <;> rfl

theorem doorPhase_componentsDoor (e : Elevator) (dt : ℚ) :
    (e.doorPhase dt).componentsDoor = e.componentsDoor := by
  unfold Elevator.doorPhase; split <;> rfl

theorem doorPhase_doorSpeed (e : Elevator) (dt : ℚ) :
    (e.doorPhase dt).doorSpeed = e.doorSpeed := by
  unfold Elevator.doorPhase; split <;> rfl

theorem doorPhase_floors (e : Elevator) (dt : ℚ) :
    (e.doorPhase dt).floors = e.floors := by
  unfold Elevator.doorPhase; split <;> rfl

theorem doorPhase_floorHeight (e : Elevator) (dt : ℚ) :
    (e.doorPhase dt).floorHeight = e.floorHeight := by
  unfold Elevator.doorPhase; split <;> rfl

theorem doorPhase_arrivalFloor (e : Elevator) (dt : ℚ) :
    (e.doorPhase dt).arrivalFloor = e.arrivalFloor := by
  unfold Elevator.doorPhase; split <;> rfl

theorem doorPhase_doorProgress_bounds (e : Elevator) (dt : ℚ) :
    0 ≤ (e.doorPhase dt).doorProgress ∧ (e.doorPhase dt).doorProgress ≤ 1 := by
  unfold Elevator.doorPhase
  split <;> exact ⟨clamp01_nonneg _, clamp01_le_one _⟩

/-- With nonnegative door health and the constructor's door speed, the
door-progress increment of a tick is nonnegative, so an open door's
progress does not decrease. -/
theorem doorPhase_doorProgress_ge (e : Elevator) (dt : ℚ) (hopen : e.doorsOpen = true)
    (hspeed : e.doorSpeed = 0.9) (hcomp : 0 ≤ e.componentsDoor) (hdt : 0 ≤ dt)
    (hlt : 0.05 < e.doorProgress) : 0.05 < (e.doorPhase dt).doorProgress := by
  unfold Elevator.doorPhase
  rw [hopen]
  simp only [if_pos rfl, if_true]
  refine lt_clamp01 (by norm_num) ?_
  have hds : 0 ≤ (1 / e.doorSpeed) * (0.5 + (e.componentsDoor / 100) * 0.8) := by
    rw [hspeed]
    positivity
  nlinarith [mul_nonneg hds hdt]

theorem popNextTarget_fields (e : Elevator) :
    (e.popNextTarget).doorsOpen = e.doorsOpen ∧
    (e.popNextTarget).doorProgress = e.doorProgress ∧
    (e.popNextTarget).state = e.state ∧
    (e.popNextTarget).componentsDoor = e.componentsDoor ∧
    (e.popNextTarget).doorSpeed = e.doorSpeed := by
  unfold Elevator.popNextTarget
  split
  · exact ⟨rfl, rfl, rfl, rfl, rfl⟩
  · split <;> exact ⟨rfl, rfl, rfl, rfl, rfl⟩

theorem clamp_lower (v a b : ℚ) : a ≤ clamp v a b := le_max_left a _

theorem clamp_upper (v a b : ℚ) (hab : a ≤ b) : clamp v a b ≤ b :=
  max_le hab (min_le_left b v)

theorem EInv_init (cfg : Cfg) (floors initialFloor : ℤ) :
    EInv (Elevator.init cfg floors initialFloor) :=
  ⟨rfl, by norm_num [Elevator.init], by norm_num [Elevator.init],
   le_refl 0, by norm_num [Elevator.init], by simp [Elevator.init]⟩

theorem EInv_requestFloor {e : Elevator} (f : ℤ) (h : EInv e) :
    EInv (e.requestFloor f) := by
  unfold Elevator.requestFloor
  dsimp only
  split_ifs <;> exact h

theorem EInv_requestExternal {e : Elevator} (f : ℤ) (h : EInv e) :
    EInv (e.requestExternal f) := by
  unfold Elevator.requestExternal
  dsimp only
  split_ifs <;> exact h

theorem EInv_openDoors {e : Elevator} (now : ℚ) (h : EInv e) :
    EInv (e.openDoors now).2 := by
  unfold Elevator.openDoors
  split_ifs
  · exact h
  · exact ⟨h.1, h.2.1, h.2.2.1, h.2.2.2.1, h.2.2.2.2.1,
      (by decide : EState.DOOR_OPEN ≠ EState.EMERGENCY)⟩

theorem EInv_closeDoors {e : Elevator} (h : EInv e) : EInv e.closeDoors.2 := by
  unfold Elevator.closeDoors
  split_ifs
  · exact h
  · exact ⟨h.1, h.2.1, h.2.2.1, h.2.2.2.1, h.2.2.2.2.1,
      (by decide : EState.DOOR_CLOSED ≠ EState.EMERGENCY)⟩

theorem EInv_enterPlayer {e : Elevator} (w now : ℚ) (h : EInv e) :
    EInv (e.enterPlayer w now).2 := by
  unfold Elevator.enterPlayer
  split_ifs <;> exact h

theorem EInv_exitPlayer {e : Elevator} (w now : ℚ) (h : EInv e) :
    EInv (e.exitPlayer w now).2 := by
  unfold Elevator.exitPlayer
  split_ifs <;> exact h

theorem EInv_doorJam {e : Elevator} (amt : ℚ) (forcedOpen : Bool) (hamt : 0 ≤ amt)
    (h : EInv e) : EInv (e.doorJam amt forcedOpen) := by
  obtain ⟨h1, h2, h3, h4, h5, h6⟩ := h
  unfold Elevator.doorJam
  dsimp only
  split_ifs
  · exact ⟨h1, le_max_left 0 _, max_le (by norm_num) (by linarith), by norm_num,
      by norm_num, (by decide : EState.DOOR_OPEN ≠ EState.EMERGENCY)⟩
  · exact ⟨h1, le_max_left 0 _, max_le (by norm_num) (by linarith), by norm_num,
      by norm_num, (by decide : EState.DOOR_CLOSED ≠ EState.EMERGENCY)⟩

theorem EInv_autoRepair {e : Elevator} (c : Elevator.Comp) (amt : ℚ) (h : EInv e) :
    EInv (e.autoRepair c amt) := by
  obtain ⟨h1, h2, h3, h4, h5, h6⟩ := h
  unfold Elevator.autoRepair
  cases c
  · exact ⟨h1, clamp_lower _ _ _, clamp_upper _ _ _ (by norm_num), h4, h5, h6⟩
  · exact ⟨h1, h2, h3, h4, h5, h6⟩

theorem EInv_npcBoard {e : Elevator} (w : ℚ) (destF : ℤ) (now : ℚ) (h : EInv e) :
    EInv (e.npcBoard w destF now) := by
  unfold Elevator.npcBoard
  dsimp only
  split_ifs with hw
  · exact EInv_requestFloor destF h
  · exact h

theorem EInv_npcExit {e : Elevator} (r now : ℚ) (h : EInv e) :
    EInv (e.npcExit r now) := h

theorem EInv_step (cfg : Cfg) (e : Elevator) (dt now : ℚ) (h : EInv e) :
    EInv (Elevator.step cfg e dt now).1 := by
  obtain ⟨h1, h2, h3, h4, h5, h6⟩ := h
  obtain ⟨hb1, hb2⟩ := doorPhase_doorProgress_bounds e dt
  have hS := doorPhase_doorSpeed e dt
  have hC := doorPhase_componentsDoor e dt
  have hSt := doorPhase_state e dt
  obtain ⟨hp1, hp2, hp3, hp4, hp5⟩ := popNextTarget_fields (e.doorPhase dt)
  unfold Elevator.step
  dsimp only
  split_ifs
  all_goals try (split)
  all_goals try (split)
  all_goals try (unfold Elevator.openDoors)
  all_goals try split_ifs
  all_goals dsimp only
  all_goals refine ⟨?_, ?_, ?_, ?_, ?_, ?_⟩
  all_goals simp_all

/-- Every in-session-reachable elevator state satisfies the structural
invariant. -/
theorem EInv_of_EReach {cfg : Cfg} {e : Elevator} (h : EReach cfg e) : EInv e := by
  induction h with
  | init floors initialFloor => exact EInv_init cfg floors initialFloor
  | requestFloor f _ ih => exact EInv_requestFloor f ih
  | requestExternal f _ ih => exact EInv_requestExternal f ih
  | openDoors now _ ih => exact EInv_openDoors now ih
  | closeDoors _ ih => exact EInv_closeDoors ih
  | enterPlayer w now _ ih => exact EInv_enterPlayer w now ih
  | exitPlayer w now _ ih => exact EInv_exitPlayer w now ih
  | step dt now _ _ ih => exact EInv_step cfg _ dt now ih
  | doorJam amt forcedOpen hamt _ ih => exact EInv_doorJam amt forcedOpen hamt ih
  | autoRepair c amt _ ih => exact EInv_autoRepair c amt ih
  | npcBoard w destF now _ ih => exact EInv_npcBoard w destF now ih
  | npcExit r now _ ih => exact EInv_npcExit r now ih

theorem openDoors_fields (e : Elevator) (now : ℚ) :
    (e.openDoors now).2.doorProgress = e.doorProgress ∧
    (e.openDoors now).2.componentsDoor = e.componentsDoor ∧
    (e.openDoors now).2.doorSpeed = e.doorSpeed ∧
    (e.openDoors now).2.velocity = e.velocity ∧
    (e.openDoors now).2.acceleration = e.acceleration ∧
    (e.openDoors now).2.position = e.position ∧
    (e.openDoors now).2.targetFloor = e.targetFloor ∧
    (e.openDoors now).2.arrivalFloor = e.arrivalFloor ∧
    (e.openDoors now).2.state ≠ EState.EMERGENCY ∨
      (e.openDoors now).2 = e := by
  unfold Elevator.openDoors
  split
  · exact Or.inr rfl
  · exact Or.inl ⟨rfl, rfl, rfl, rfl, rfl, rfl, rfl, rfl, by simp⟩

theorem firstMinGo_spec (l : List ℚ) (i b : ℕ) (m : ℚ) :
    (firstMinGo l i b (some m) = b ∧ ∀ d ∈ l, m ≤ d) ∨
    (∃ j, j < l.length ∧ firstMinGo l i b (some m) = i + j ∧
      l.getD j 0 < m ∧ (∀ d ∈ l, l.getD j 0 ≤ d) ∧
      (∀ k, k < j → l.getD j 0 < l.getD k 0)) := by
  induction l generalizing i b m with
  | nil => exact Or.inl ⟨rfl, by simp⟩
  | cons d rest ih =>
    have hunf : firstMinGo (d :: rest) i b (some m)
        = if d < m then firstMinGo rest (i + 1) i (some d)
          else firstMinGo rest (i + 1) b (some m) := rfl
    rw [hunf]
    by_cases hdm : d < m
    · rw [if_pos hdm]
      rcases ih (i + 1) i d with ⟨heq, hall⟩ | ⟨j, hj, heq, hlt, hmin, hfirst⟩
      · refine Or.inr ⟨0, by simp, by rw [heq]; omega, ?_, ?_, ?_⟩
        · simpa using hdm
        · intro x hx
          rcases List.mem_cons.mp hx with rfl | hx
          · simp
          · simpa using hall x hx
        · intro k hk; omega
      · refine Or.inr ⟨j + 1, by simpa using Nat.succ_lt_succ hj, by rw [heq]; omega, ?_, ?_, ?_⟩
        · calc (d :: rest).getD (j + 1) 0 = rest.getD j 0 := rfl
            _ < d := hlt
            _ < m := hdm
        · intro x hx
          rcases List.mem_cons.mp hx with rfl | hx
          · exact le_of_lt hlt
          · exact hmin x hx
        · intro k hk
          cases k with
          | zero => exact hlt
          | succ k => exact hfirst k (by omega)
    · rw [if_neg hdm]
      rcases ih (i + 1) b m with ⟨heq, hall⟩ | ⟨j, hj, heq, hlt, hmin, hfirst⟩
      · refine Or.inl ⟨heq, ?_⟩
        intro x hx
        rcases List.mem_cons.mp hx with rfl | hx
        · exact le_of_not_lt hdm
        · exact hall x hx
      · refine Or.inr ⟨j + 1, by simpa using Nat.succ_lt_succ hj, by rw [heq]; omega, hlt, ?_, ?_⟩
        · intro x hx
          rcases List.mem_cons.mp hx with rfl | hx
          · exact le_trans (le_of_lt hlt) (le_of_not_lt hdm)
          · exact hmin x hx
        · intro k hk
          cases k with
          | zero => exact lt_of_lt_of_le hlt (le_of_not_lt hdm)
          | succ k => exact hfirst k (by omega)

theorem firstMinIdx_spec (l : List ℚ) (h : l ≠ []) :
    firstMinIdx l < l.length ∧
    (∀ x ∈ l, l.getD (firstMinIdx l) 0 ≤ x) ∧
    (∀ k, k < firstMinIdx l → l.getD k 0 > l.getD (firstMinIdx l) 0) := by
  match l with
  | [] => exact absurd rfl h
  | d :: rest =>
    have hunf : firstMinIdx (d :: rest) = firstMinGo rest 1 0 (some d) := rfl
    rcases firstMinGo_spec rest 1 0 d with ⟨heq, hall⟩ | ⟨j, hj, heq, hlt, hmin, hfirst⟩
    · rw [hunf, heq]
      refine ⟨by simp, ?_, ?_⟩
      · intro x hx
        rcases List.mem_cons.mp hx with rfl | hx
        · simp
        · simpa using hall x hx
      · intro k hk; omega
    · rw [hunf, heq]
      have hgd : (d :: rest).getD (1 + j) 0 = rest.getD j 0 := by
        have : 1 + j = j + 1 := by omega
        rw [this]; rfl
      refine ⟨by simpa using by omega, ?_, ?_⟩
      · intro x hx
        rw [hgd]
        rcases List.mem_cons.mp hx with rfl | hx
        · exact le_of_lt hlt
        · exact hmin x hx
      · intro k hk
        rw [hgd]
        cases k with
        | zero => exact hlt
        | succ k => exact hfirst k (by omega)

theorem map_getD_of_lt {α β : Type} [Inhabited α] (f : α → β) (l : List α) (k : ℕ)
    (d0 : β) (hk : k < l.length) : (l.map f).getD k d0 = f (l.getD k default) := by
  induction l generalizing k with
  | nil => cases hk
  | cons a rest ih =>
    cases k with
    | zero => rfl
    | succ k => exact ih k (by simpa using hk)

theorem markAssignedById_eq_map {cs : List Call} {id : String} (now : ℚ)
    (h : (cs.map Call.id).Nodup) :
    World.markAssignedById cs id now
      = cs.map (fun c => if c.id = id then
          { c with status := CStatus.assigned, assignedTs := some now } else c) := by
  induction cs with
  | nil => rfl
  | cons c rest ih =>
    have hrest : (rest.map Call.id).Nodup := (List.nodup_cons.mp h).2
    have hnotin : c.id ∉ rest.map Call.id := (List.nodup_cons.mp h).1
    show (if c.id = id then _ else _) = _
    by_cases hc : c.id = id
    · rw [if_pos hc]
      simp only [List.map_cons, if_pos hc]
      congr 1
      have : ∀ x ∈ rest, (if x.id = id then
          { x with status := CStatus.assigned, assignedTs := some now } else x) = x := by
        intro x hx
        rw [if_neg]
        intro hxid
        exact hnotin (hc ▸ hxid ▸ List.mem_map_of_mem Call.id hx)
      rw [List.map_congr_left this]
      simp
    · rw [if_neg hc]
      simp only [List.map_cons, if_neg hc]
      congr 1
      exact ih hrest

theorem CallsOK_map {cs : List Call} (g : Call → Call)
    (hkey : ∀ c, (g c).floor = c.floor ∧ (g c).dir = c.dir ∧ (g c).who = c.who)
    (hlive : ∀ c, liveS (g c).status = true → liveS c.status = true)
    (h : CallsOK cs) : CallsOK (cs.map g) := by
  rw [CallsOK, List.pairwise_map]
  refine List.Pairwise.imp ?_ h
  intro a b hab hla hlb hk
  refine hab (hlive a hla) (hlive b hlb) ?_
  have ka := hkey a
  have kb := hkey b
  obtain ⟨hk1, hk2, hk3⟩ := hk
  rw [ka.1, kb.1] at hk1
  rw [ka.2.1, kb.2.1] at hk2
  rw [ka.2.2, kb.2.2] at hk3
  exact ⟨hk1, hk2, hk3⟩

def WCallsInv (cs : List Call) : Prop := CallsOK cs ∧ (cs.map Call.id).Nodup

theorem CallsOK_map_mem {cs : List Call} (g : Call → Call)
    (hkey : ∀ c ∈ cs, (g c).floor = c.floor ∧ (g c).dir = c.dir ∧ (g c).who = c.who)
    (hlive : ∀ c ∈ cs, liveS (g c).status = true → liveS c.status = true)
    (h : CallsOK cs) : CallsOK (cs.map g) := by
  rw [CallsOK, List.pairwise_map]
  refine List.Pairwise.imp_of_mem ?_ h
  intro a b ha hb hab hla hlb hk
  refine hab (hlive a ha hla) (hlive b hb hlb) ?_
  have ka := hkey a ha
  have kb := hkey b hb
  obtain ⟨hk1, hk2, hk3⟩ := hk
  rw [ka.1, kb.1] at hk1
  rw [ka.2.1, kb.2.1] at hk2
  rw [ka.2.2, kb.2.2] at hk3
  exact ⟨hk1, hk2, hk3⟩

theorem WCallsInv_append {cs : List Call} (nc : Call)
    (hnolive : ∀ c ∈ cs, liveS c.status = true → ¬ (c.floor = nc.floor ∧ c.dir = nc.dir ∧ c.who = nc.who))
    (hid : ∀ c ∈ cs, c.id ≠ nc.id)
    (h : WCallsInv cs) : WCallsInv (cs ++ [nc]) := by
  obtain ⟨hok, hnd⟩ := h
  constructor
  · rw [CallsOK, List.pairwise_append]
    refine ⟨hok, List.pairwise_singleton _ _, ?_⟩
    intro a ha b hb hla hlb hk
    rcases List.mem_singleton.mp hb with rfl
    exact hnolive a ha hla ⟨hk.1, hk.2.1, hk.2.2⟩
  · rw [List.map_append, List.nodup_append]
    refine ⟨hnd, List.nodup_singleton _, ?_⟩
    intro x hx hx2
    rcases List.mem_map.mp hx with ⟨c, hc, rfl⟩
    rcases List.mem_singleton.mp (by simpa using hx2) with h2
    exact hid c hc h2

theorem WCallsInv_playerCall (w : World) (f : ℤ) (d : Dir) (now : ℚ) (id : String)
    (hid : ∀ c ∈ w.calls, c.id ≠ id)
    (h : WCallsInv w.calls) : WCallsInv (w.playerCall f d now id).2.calls := by
  unfold World.playerCall
  dsimp only
  split_ifs with h1 h2
  · exact h
  · exact h
  · refine WCallsInv_append _ ?_ hid h
    intro c hc hl hk
    refine h2 ?_
    rw [List.any_eq_true]
    exact ⟨c, hc, by simp [hk.1, hk.2.1, hl]⟩

theorem WCallsInv_requestExternalCall (w : World) (f : ℤ) (d : Dir) (who : String)
    (now : ℚ) (id : String) (hid : ∀ c ∈ w.calls, c.id ≠ id)
    (h : WCallsInv w.calls) : WCallsInv (w.requestExternalCall f d who now id).calls := by
  unfold World.requestExternalCall
  split_ifs with h1
  · exact h
  · refine WCallsInv_append _ ?_ hid h
    intro c hc hl hk
    refine h1 ?_
    rw [List.any_eq_true]
    exact ⟨c, hc, by simp [hk.1, hk.2.1, hk.2.2, hl]⟩

theorem WCallsInv_markCallServedAtFloor (w : World) (f : ℤ) (now : ℚ)
    (h : WCallsInv w.calls) : WCallsInv (w.markCallServedAtFloor f now).calls := by
  obtain ⟨hok, hnd⟩ := h
  unfold World.markCallServedAtFloor
  dsimp only
  constructor
  · refine CallsOK_map_mem _ ?_ ?_ hok
    · intro c _
      split_ifs <;> exact ⟨rfl, rfl, rfl⟩
    · intro c _ hl
      by_cases hcc : c.floor = f ∧ liveS c.status
      · rw [if_pos hcc] at hl
        simp [liveS] at hl
      · rw [if_neg hcc] at hl
        exact hl
  · have : (w.calls.map (fun c =>
        if c.floor = f ∧ liveS c.status then
          { c with status := CStatus.served, servedTs := some now }
        else c)).map Call.id = w.calls.map Call.id := by
      rw [List.map_map]
      refine List.map_congr_left ?_
      intro c _
      by_cases hcc : c.floor = f ∧ liveS c.status
      · simp [hcc]
      · simp [hcc]
    rw [this]
    exact hnd

theorem assignChosen_mem (w : World) (hne : w.pendingOf ≠ []) :
    w.assignChosen ∈ w.pendingOf ∧ w.assignChosen.status = CStatus.pending := by
  have hlen : firstMinIdx ((w.pendingOf).map (World.callDist (w.elev.metersToFloor w.elev.position)))
      < w.pendingOf.length := by
    have := (firstMinIdx_spec ((w.pendingOf).map (World.callDist (w.elev.metersToFloor w.elev.position)))
      (by simpa using hne)).1
    simpa using this
  have hmem : w.assignChosen ∈ w.pendingOf := by
    unfold World.assignChosen
    rw [List.getD_eq_getElem _ _ hlen]
    exact List.getElem_mem _
  refine ⟨hmem, ?_⟩
  have := List.mem_filter.mp hmem
  simpa using this.2

theorem WCallsInv_assignCalls (w : World) (now : ℚ) (h : WCallsInv w.calls) :
    WCallsInv (w.assignCalls now).calls := by
  obtain ⟨hok, hnd⟩ := h
  unfold World.assignCalls
  split_ifs with h1 h2
  · exact ⟨hok, hnd⟩
  · exact ⟨hok, hnd⟩
  · dsimp only
    rw [markAssignedById_eq_map now hnd]
    obtain ⟨hmp, hst⟩ := assignChosen_mem w h2
    have hmem : w.assignChosen ∈ w.calls := List.mem_of_mem_filter hmp
    constructor
    · refine CallsOK_map_mem _ ?_ ?_ hok
      · intro c _
        split_ifs <;> exact ⟨rfl, rfl, rfl⟩
      · intro c hc hl
        by_cases hcid : c.id = w.assignChosen.id
        · have hceq : c = w.assignChosen :=
            List.inj_on_of_nodup_map hnd hc hmem hcid
          rw [hceq, hst]
          rfl
        · rw [if_neg hcid] at hl
          exact hl
    · have hids : (w.calls.map (fun c =>
          if c.id = w.assignChosen.id then
            { c with status := CStatus.assigned, assignedTs := some now }
          else c)).map Call.id = w.calls.map Call.id := by
        rw [List.map_map]
        refine List.map_congr_left ?_
        intro c _
        by_cases hcid : c.id = w.assignChosen.id
        · simp [hcid]
        · simp [hcid]
      rw [hids]
      exact hnd

/-- Every in-session-reachable world has duplicate-free live calls (and
duplicate-free call ids). -/
theorem WCallsInv_of_WReach {cfg : Cfg} {w : World} (h : WReach cfg w) :
    WCallsInv w.calls := by
  induction h with
  | init now npcDelay => exact ⟨List.Pairwise.nil, List.Pairwise.nil⟩
  | playerCall f d now id hid _ ih => exact WCallsInv_playerCall _ f d now id hid ih
  | requestExternalCall f d who now id hid _ ih =>
      exact WCallsInv_requestExternalCall _ f d who now id hid ih
  | assignCalls now _ ih => exact WCallsInv_assignCalls _ now ih
  | markCallServedAtFloor f now _ ih => exact WCallsInv_markCallServedAtFloor _ f now ih
  | other w2 _ hcalls ih => exact hcalls ▸ ih

/-! Per-claim theorems. -/

/-- C1: `enterPassenger` (the source's `enterPlayer`) never succeeds
when the resulting load would exceed the overload limit: whenever
`loadKg + w > overloadLimitKg`, the call returns failure and the whole
elevator state — in particular `loadKg`, `playerInside` and
`lastDoorActionMs` — is unchanged. -/
theorem enterPlayer_overload_rejected (e : Elevator) (w now : ℚ)
    (h : e.loadKg + w > e.overloadLimitKg) :
    e.enterPlayer w now = (false, e) := by
  unfold Elevator.enterPlayer
  split_ifs <;> rfl

/-- C1 witness: with the load at `overloadLimitKg - 10` (1790 kg),
entering with 20 kg fails and changes nothing. -/
theorem enterPlayer_overload_rejected_witness :
    elevNearLimit.loadKg + 20 > elevNearLimit.overloadLimitKg ∧
    elevNearLimit.enterPlayer 20 5000 = (false, elevNearLimit) :=
  ⟨by norm_num [elevNearLimit, Elevator.init],
   enterPlayer_overload_rejected elevNearLimit 20 5000
     (by norm_num [elevNearLimit, Elevator.init])⟩

theorem enterPlayer_of_inside (e : Elevator) (w n : ℚ) (h : e.playerInside = true) :
    e.enterPlayer w n = (false, e) := by
  unfold Elevator.enterPlayer
  split_ifs <;> rfl

theorem exitPlayer_of_outside (e : Elevator) (w n : ℚ) (h : e.playerInside = false) :
    e.exitPlayer w n = (false, e) := by
  unfold Elevator.exitPlayer
  split_ifs <;> first | rfl | simp_all

theorem enterPlayer_success_inside (e : Elevator) (w n : ℚ)
    (h : (e.enterPlayer w n).1 = true) : (e.enterPlayer w n).2.playerInside = true := by
  unfold Elevator.enterPlayer at h ⊢
  split_ifs at h ⊢ <;> simp_all

theorem exitPlayer_success_outside (e : Elevator) (w n : ℚ)
    (h : (e.exitPlayer w n).1 = true) : (e.exitPlayer w n).2.playerInside = false := by
  unfold Elevator.exitPlayer at h ⊢
  split_ifs at h ⊢ <;> simp_all

/-- C6: the enter/exit guards are idempotent — after a successful
`enterPassenger`, a second `enterPassenger` (any weight, any time, no
intervening exit) fails and changes nothing; symmetrically a second
`exitPassenger` after a successful one fails and changes nothing. -/
theorem enter_exit_idempotent (e : Elevator) (w1 w2 n1 n2 : ℚ) :
    ((e.enterPlayer w1 n1).1 = true →
      (e.enterPlayer w1 n1).2.enterPlayer w2 n2 = (false, (e.enterPlayer w1 n1).2)) ∧
    ((e.exitPlayer w1 n1).1 = true →
      (e.exitPlayer w1 n1).2.exitPlayer w2 n2 = (false, (e.exitPlayer w1 n1).2)) := by
  constructor
  · intro h
    exact enterPlayer_of_inside _ w2 n2 (enterPlayer_success_inside e w1 n1 h)
  · intro h
    exact exitPlayer_of_outside _ w2 n2 (exitPlayer_success_outside e w1 n1 h)

/-- C6 witness: a successful entry at an open door is not doubly applied
(the repeat fails and leaves the state of the first entry), and the
symmetric exit pair behaves the same. -/
theorem enter_exit_idempotent_witness :
    (elevNearLimit.enterPlayer 5 2000).1 = true ∧
    (elevNearLimit.enterPlayer 5 2000).2.enterPlayer 5 4000
      = (false, (elevNearLimit.enterPlayer 5 2000).2) ∧
    (elevOccupied.exitPlayer 75 2000).1 = true ∧
    (elevOccupied.exitPlayer 75 2000).2.exitPlayer 75 4000
      = (false, (elevOccupied.exitPlayer 75 2000).2) :=
  ⟨by norm_num [Elevator.enterPlayer, elevNearLimit, Elevator.init, defaultCFG, jsOr],
   (enter_exit_idempotent elevNearLimit 5 5 2000 4000).1
     (by norm_num [Elevator.enterPlayer, elevNearLimit, Elevator.init, defaultCFG, jsOr]),
   by norm_num [Elevator.exitPlayer, elevOccupied, Elevator.init, defaultCFG, jsOr],
   (enter_exit_idempotent elevOccupied 75 75 2000 4000).2
     (by norm_num [Elevator.exitPlayer, elevOccupied, Elevator.init, defaultCFG, jsOr])⟩

/-- C2: every in-session-reachable elevator state has
`doorProgress ∈ [0, 1]`, and whenever the doors are open with
`doorProgress > 0.05`, `step(dt)` zeroes velocity and acceleration and
leaves the position unchanged for that tick. -/
theorem doorProgress_bounds_interlock (cfg : Cfg) (e : Elevator) (h : EReach cfg e)
    (dt now : ℚ) (hdt : 0 ≤ dt) :
    (0 ≤ e.doorProgress ∧ e.doorProgress ≤ 1) ∧
    (e.doorsOpen = true → 0.05 < e.doorProgress →
      (Elevator.step cfg e dt now).1.velocity = 0 ∧
      (Elevator.step cfg e dt now).1.acceleration = 0 ∧
      (Elevator.step cfg e dt now).1.position = e.position) := by
  obtain ⟨h1, h2, h3, h4, h5, h6⟩ := EInv_of_EReach h
  refine ⟨⟨h4, h5⟩, ?_⟩
  intro hopen hprog
  have hgt := doorPhase_doorProgress_ge e dt hopen h1 h2 hdt hprog
  unfold Elevator.step
  dsimp only
  rw [if_neg (by rw [doorPhase_state]; exact h6)]
  rw [if_pos ⟨by rw [doorPhase_doorsOpen]; exact hopen, hgt⟩]
  exact ⟨rfl, rfl, doorPhase_position e dt⟩

/-- C2 witness: the invariant and the interlock at a reachable state
whose doors a door jam forced fully open. -/
theorem doorProgress_bounds_interlock_witness :
    ((0 ≤ elevJammedOpen.doorProgress ∧ elevJammedOpen.doorProgress ≤ 1) ∧
     (elevJammedOpen.doorsOpen = true → 0.05 < elevJammedOpen.doorProgress →
       (Elevator.step defaultCFG elevJammedOpen (1/60) 0).1.velocity = 0 ∧
       (Elevator.step defaultCFG elevJammedOpen (1/60) 0).1.acceleration = 0 ∧
       (Elevator.step defaultCFG elevJammedOpen (1/60) 0).1.position
         = elevJammedOpen.position)) :=
  doorProgress_bounds_interlock defaultCFG elevJammedOpen
    (EReach.doorJam 10 true (by norm_num) (EReach.init 18 0)) (1/60) 0 (by norm_num)

theorem doorPhase_floorToMeters (e : Elevator) (dt : ℚ) (t : ℤ) :
    (e.doorPhase dt).floorToMeters t = e.floorToMeters t := by
  unfold Elevator.floorToMeters
  rw [doorPhase_floors, doorPhase_floorHeight]

theorem doorPhase_motionAccel (cfg : Cfg) (e : Elevator) (dt : ℚ) (t : ℤ) :
    Elevator.motionAccel cfg (e.doorPhase dt) t = Elevator.motionAccel cfg e t := by
  unfold Elevator.motionAccel
  rw [doorPhase_floorToMeters, doorPhase_position, doorPhase_velocity]

/-- C3: when an active target's remaining distance (measured before the
position update) is under 0.03 m and the updated speed is under
0.06 m/s, the tick snaps the position to the target floor's coordinate,
zeroes velocity and acceleration, records `arrivalFloor`, clears
`targetFloor`, reaches `ARRIVED`, immediately attempts `openDoors()`
(so the final state is `DOOR_OPEN` with doors open when door health
permits, and stays `ARRIVED` otherwise), and emits the arrival
notification carrying the floor number. -/
theorem step_arrival (cfg : Cfg) (e : Elevator) (dt now : ℚ) (t : ℤ)
    (hE : e.state ≠ EState.EMERGENCY)
    (hdoor : ¬(e.doorsOpen = true ∧ 0.05 < (e.doorPhase dt).doorProgress))
    (ht : e.targetFloor = some t)
    (hdist : |e.floorToMeters t - e.position| < 0.03)
    (hvel : |Elevator.motionVel cfg e dt t| < 0.06) :
    (Elevator.step cfg e dt now).2 = [LiftEvent.arrived t] ∧
    (Elevator.step cfg e dt now).1.position = e.floorToMeters t ∧
    (Elevator.step cfg e dt now).1.velocity = 0 ∧
    (Elevator.step cfg e dt now).1.acceleration = 0 ∧
    (Elevator.step cfg e dt now).1.arrivalFloor = some t ∧
    (Elevator.step cfg e dt now).1.targetFloor = none ∧
    (¬ e.componentsDoor < 5 →
      (Elevator.step cfg e dt now).1.state = EState.DOOR_OPEN ∧
      (Elevator.step cfg e dt now).1.doorsOpen = true) ∧
    (e.componentsDoor < 5 →
      (Elevator.step cfg e dt now).1.state = EState.ARRIVED ∧
      (Elevator.step cfg e dt now).1.doorsOpen = e.doorsOpen) := by
  have htp : (e.doorPhase dt).targetFloor = some t := by rw [doorPhase_targetFloor]; exact ht
  unfold Elevator.step
  dsimp only
  rw [if_neg (by rw [doorPhase_state]; exact hE)]
  rw [if_neg (by rw [doorPhase_doorsOpen]; exact hdoor)]
  rw [if_neg (by rw [htp]; simp)]
  rw [htp]
  dsimp only
  rw [if_pos ?hcond]
  case hcond =>
    constructor
    · rw [doorPhase_floorToMeters, doorPhase_position]
      exact hdist
    · rw [doorPhase_motionAccel, doorPhase_velocity]
      exact hvel
  unfold Elevator.openDoors
  dsimp only
  rw [doorPhase_componentsDoor]
  split_ifs with hcomp
  · refine ⟨rfl, doorPhase_floorToMeters e dt t, rfl, rfl, rfl, rfl, ?_, ?_⟩
    · intro hcomp2
      exact absurd hcomp hcomp2
    · intro _
      exact ⟨rfl, doorPhase_doorsOpen e dt⟩
  · refine ⟨rfl, doorPhase_floorToMeters e dt t, rfl, rfl, rfl, rfl, ?_, ?_⟩
    · intro _
      exact ⟨rfl, rfl⟩
    · intro hcomp2
      exact absurd hcomp2 hcomp

/-- C3 witness: a cabin at rest exactly at floor 3's coordinate with
the doors closed arrives there on the next 1/60 s tick. -/
theorem step_arrival_witness :
    (Elevator.step defaultCFG elevAtTarget (1/60) 0).2 = [LiftEvent.arrived 3] ∧
    (Elevator.step defaultCFG elevAtTarget (1/60) 0).1.position
      = elevAtTarget.floorToMeters 3 ∧
    (Elevator.step defaultCFG elevAtTarget (1/60) 0).1.velocity = 0 ∧
    (Elevator.step defaultCFG elevAtTarget (1/60) 0).1.acceleration = 0 ∧
    (Elevator.step defaultCFG elevAtTarget (1/60) 0).1.arrivalFloor = some 3 ∧
    (Elevator.step defaultCFG elevAtTarget (1/60) 0).1.targetFloor = none ∧
    (¬ elevAtTarget.componentsDoor < 5 →
      (Elevator.step defaultCFG elevAtTarget (1/60) 0).1.state = EState.DOOR_OPEN ∧
      (Elevator.step defaultCFG elevAtTarget (1/60) 0).1.doorsOpen = true) ∧
    (elevAtTarget.componentsDoor < 5 →
      (Elevator.step defaultCFG elevAtTarget (1/60) 0).1.state = EState.ARRIVED ∧
      (Elevator.step defaultCFG elevAtTarget (1/60) 0).1.doorsOpen
        = elevAtTarget.doorsOpen) :=
  step_arrival defaultCFG elevAtTarget (1/60) 0 3
    (by simp [elevAtTarget, Elevator.init])
    (by simp [elevAtTarget, Elevator.init])
    (by simp [elevAtTarget, Elevator.init])
    (by norm_num [elevAtTarget, Elevator.init, Elevator.floorToMeters, iclamp, defaultCFG])
    (by norm_num [elevAtTarget, Elevator.init, Elevator.motionVel, Elevator.motionAccel,
          Elevator.floorToMeters, iclamp, clamp, qsign, jsOr, defaultCFG]
        rw [abs_of_pos] <;> norm_num)

/-- C4: `assignCalls()` is a no-op whenever the elevator has a non-null
target.  Otherwise, with pending calls present (and the randomly
generated call ids distinct), the chosen call is pending, has minimal
absolute floor distance from the current floor among pending calls,
is the first such minimum in list order, is exactly the call whose
status becomes `assigned` (with the assignment timestamp), and its floor
is pushed onto the elevator's request path via `requestExternal` —
which sets it as target when the elevator is idle, and otherwise
appends it to the queue with duplicate suppression. -/
theorem assignCalls_spec (w : World) (now : ℚ) :
    (w.elev.targetFloor ≠ none → w.assignCalls now = w) ∧
    (w.elev.targetFloor = none → w.pendingOf ≠ [] → (w.calls.map Call.id).Nodup →
      (w.assignChosen ∈ w.pendingOf ∧ w.assignChosen.status = CStatus.pending) ∧
      (∀ c ∈ w.pendingOf,
        World.callDist (w.elev.metersToFloor w.elev.position) w.assignChosen
          ≤ World.callDist (w.elev.metersToFloor w.elev.position) c) ∧
      (∀ j, j < firstMinIdx ((w.pendingOf).map
            (World.callDist (w.elev.metersToFloor w.elev.position))) →
        World.callDist (w.elev.metersToFloor w.elev.position) w.assignChosen
          < World.callDist (w.elev.metersToFloor w.elev.position)
              ((w.pendingOf).getD j default)) ∧
      (w.assignCalls now).calls
        = w.calls.map (fun c => if c.id = w.assignChosen.id then
            { c with status := CStatus.assigned, assignedTs := some now } else c) ∧
      (w.assignCalls now).elev = w.elev.requestExternal w.assignChosen.floor) ∧
    (∀ e : Elevator, ∀ f : ℤ, e.targetFloor = none →
      (e.queue = [] →
        (e.requestExternal f).targetFloor = some (iclamp f 0 (e.floors - 1)) ∧
        (e.requestExternal f).queue = e.queue) ∧
      (e.queue ≠ [] →
        (e.requestExternal f).targetFloor = none ∧
        (e.requestExternal f).queue =
          (if iclamp f 0 (e.floors - 1) ∈ e.queue then e.queue
           else e.queue ++ [iclamp f 0 (e.floors - 1)]))) := by
  refine ⟨?_, ?_, ?_⟩
  · intro h
    unfold World.assignCalls
    rw [if_pos h]
  · intro hT hP hN
    set cur := w.elev.metersToFloor w.elev.position with hcur
    set l := (w.pendingOf).map (World.callDist cur) with hl
    have hlne : l ≠ [] := by simpa [hl] using hP
    have hklen0 := (firstMinIdx_spec l hlne).1
    have hklen : firstMinIdx l < w.pendingOf.length := by
      simpa [hl] using hklen0
    have hgd : l.getD (firstMinIdx l) 0
        = World.callDist cur ((w.pendingOf).getD (firstMinIdx l) default) := by
      rw [hl]
      exact map_getD_of_lt _ _ _ _ hklen
    have hchosen : w.assignChosen = (w.pendingOf).getD (firstMinIdx l) default := by
      unfold World.assignChosen
      dsimp only
    refine ⟨assignChosen_mem w hP, ?_, ?_, ?_, ?_⟩
    · intro c hc
      have := (firstMinIdx_spec l hlne).2.1 (World.callDist cur c)
        (by rw [hl]; exact List.mem_map_of_mem _ hc)
      rw [hgd] at this
      rw [hchosen]
      exact this
    · intro j hj
      have hjlen : j < w.pendingOf.length := lt_trans hj hklen
      have := (firstMinIdx_spec l hlne).2.2 j hj
      rw [hgd] at this
      have hgdj : l.getD j 0 = World.callDist cur ((w.pendingOf).getD j default) := by
        rw [hl]
        exact map_getD_of_lt _ _ _ _ hjlen
      rw [hgdj] at this
      rw [hchosen]
      exact this
    · unfold World.assignCalls
      rw [if_neg (by simp [hT]), if_neg hP]
      exact markAssignedById_eq_map now hN
    · unfold World.assignCalls
      rw [if_neg (by simp [hT]), if_neg hP]
  · intro e f hT
    constructor
    · intro hq
      unfold Elevator.requestExternal
      dsimp only
      rw [if_pos ⟨hT, hq⟩]
      exact ⟨rfl, rfl⟩
    · intro hq
      unfold Elevator.requestExternal
      dsimp only
      rw [if_neg (by simp [hq])]
      by_cases hm : iclamp f 0 (e.floors - 1) ∈ e.queue
      · rw [if_neg (by simp [hm]), if_pos hm]
        exact ⟨hT, rfl⟩
      · rw [if_pos ⟨hm, by simp [hT]⟩, if_neg hm]
        exact ⟨hT, rfl⟩

/-- C4 witness: with pending calls at floors 5 and 2 and the cabin at
floor 0, the dispatcher assigns the call at floor 2 and targets it. -/
theorem assignCalls_spec_witness :
    worldTwoCalls.elev.targetFloor = none ∧
    worldTwoCalls.pendingOf ≠ [] ∧
    (worldTwoCalls.calls.map Call.id).Nodup ∧
    (worldTwoCalls.assignCalls 7).calls
      = worldTwoCalls.calls.map (fun c => if c.id = worldTwoCalls.assignChosen.id then
          { c with status := CStatus.assigned, assignedTs := some 7 } else c) ∧
    (worldTwoCalls.assignCalls 7).elev
      = worldTwoCalls.elev.requestExternal worldTwoCalls.assignChosen.floor := by
  have h1 : worldTwoCalls.elev.targetFloor = none := rfl
  have h2 : worldTwoCalls.pendingOf ≠ [] := by decide
  have h3 : (worldTwoCalls.calls.map Call.id).Nodup := by decide
  have h := (assignCalls_spec worldTwoCalls 7).2.1 h1 h2 h3
  exact ⟨h1, h2, h3, h.2.2.2.1, h.2.2.2.2⟩

/-- C5: in every in-session-reachable world (random call ids assumed
distinct) at most one live (pending/assigned) call exists per
`(floor, direction, requester)` tuple; moreover, while a live call for a
`(floor, direction)` exists, resubmitting it through `playerCall` fails
and appends nothing, and resubmitting the same requester's call through
`requestExternalCall` leaves the world unchanged — so exactly one live
record remains. -/
theorem live_call_uniqueness (cfg : Cfg) (w : World) (h : WReach cfg w) :
    CallsOK w.calls ∧
    (∀ f d (now : ℚ) id,
      (∃ c ∈ w.calls, liveS c.status = true ∧ c.floor = f ∧ c.dir = d) →
      (w.playerCall f d now id).1 = false ∧ (w.playerCall f d now id).2.calls = w.calls) ∧
    (∀ f d who (now : ℚ) id,
      (∃ c ∈ w.calls, liveS c.status = true ∧ c.floor = f ∧ c.dir = d ∧ c.who = who) →
      w.requestExternalCall f d who now id = w) := by
  refine ⟨(WCallsInv_of_WReach h).1, ?_, ?_⟩
  · intro f d now id hex
    unfold World.playerCall
    dsimp only
    split_ifs with hdeb hany
    · exact ⟨rfl, rfl⟩
    · exact ⟨rfl, rfl⟩
    · exfalso
      refine hany (List.any_eq_true.mpr ?_)
      obtain ⟨c, hc, hl, hf, hd⟩ := hex
      exact ⟨c, hc, by simp [hf, hd, hl]⟩
  · intro f d who now id hex
    unfold World.requestExternalCall
    split_ifs with hany
    · rfl
    · exfalso
      refine hany (List.any_eq_true.mpr ?_)
      obtain ⟨c, hc, hl, hf, hd, hw⟩ := hex
      exact ⟨c, hc, by simp [hf, hd, hl, hw]⟩

/-- C10: the passenger call path's duplicate check ignores the
requester entirely — `playerCall(floor, dir)` fails and appends nothing
whenever ANY live call with the same floor and direction exists (even an
NPC's) — whereas `requestExternalCall` only suppresses duplicates from
the same requester: when every live call at `(floor, dir)` has a
different `who`, it appends a fresh pending call. -/
theorem playerCall_ignores_requester (w : World) (f : ℤ) (d : Dir) (who : String)
    (now : ℚ) (id : String) :
    ((∃ c ∈ w.calls, liveS c.status = true ∧ c.floor = f ∧ c.dir = d) →
      (w.playerCall f d now id).1 = false ∧ (w.playerCall f d now id).2.calls = w.calls) ∧
    ((∀ c ∈ w.calls, liveS c.status = true → c.floor = f → c.dir = d → c.who ≠ who) →
      w.requestExternalCall f d who now id = { w with calls := w.calls ++
        [{ id := id, floor := f, dir := d, who := who, ts := now,
           status := CStatus.pending, assignedTs := none, servedTs := none }] }) := by
  constructor
  · intro hex
    unfold World.playerCall
    dsimp only
    split_ifs with hdeb hany
    · exact ⟨rfl, rfl⟩
    · exact ⟨rfl, rfl⟩
    · exfalso
      refine hany (List.any_eq_true.mpr ?_)
      obtain ⟨c, hc, hl, hf, hd⟩ := hex
      exact ⟨c, hc, by simp [hf, hd, hl]⟩
  · intro hall
    unfold World.requestExternalCall
    split_ifs with hany
    · exfalso
      obtain ⟨c, hc, hdec⟩ := List.any_eq_true.mp hany
      have := of_decide_eq_true hdec
      exact hall c hc (by simp [this.2.2.1]) this.1 this.2.1 this.2.2.2
    · rfl

/-- C5 witness: after the passenger's call at floor 3 the live-call
uniqueness holds and a resubmission (by the passenger or the same
requester) is rejected without a second record. -/
theorem live_call_uniqueness_witness :
    CallsOK worldAfterCall.calls ∧
    (worldAfterCall.playerCall 3 Dir.up 9000 "b").1 = false ∧
    (worldAfterCall.playerCall 3 Dir.up 9000 "b").2.calls = worldAfterCall.calls ∧
    worldAfterCall.requestExternalCall 3 Dir.up "Passenger" 9000 "b"
      = worldAfterCall := by
  have hr : WReach defaultCFG worldAfterCall :=
    WReach.playerCall 3 Dir.up 5000 "a"
      (by intro c hc; simp [World.init] at hc) (WReach.init 0 (fun _ => 0))
  have h := live_call_uniqueness defaultCFG worldAfterCall hr
  have hex : ∃ c ∈ worldAfterCall.calls,
      liveS c.status = true ∧ c.floor = 3 ∧ c.dir = Dir.up := by decide
  have hex2 : ∃ c ∈ worldAfterCall.calls,
      liveS c.status = true ∧ c.floor = 3 ∧ c.dir = Dir.up ∧ c.who = "Passenger" := by
    decide
  exact ⟨h.1, (h.2.1 3 Dir.up 9000 "b" hex).1, (h.2.1 3 Dir.up 9000 "b" hex).2,
         h.2.2 3 Dir.up "Passenger" 9000 "b" hex2⟩

/-- C10 witness: a live NPC call (up at floor 3) blocks the passenger's
`playerCall(3, up)` entirely, while a different NPC's
`requestExternalCall(3, up)` is appended. -/
theorem playerCall_ignores_requester_witness :
    (worldNpcCall.playerCall 3 Dir.up 5000 "b").1 = false ∧
    (worldNpcCall.playerCall 3 Dir.up 5000 "b").2.calls = worldNpcCall.calls ∧
    worldNpcCall.requestExternalCall 3 Dir.up "NPC-2" 5000 "b"
      = { worldNpcCall with calls := worldNpcCall.calls ++
          [{ id := "b", floor := 3, dir := Dir.up, who := "NPC-2", ts := 5000,
             status := CStatus.pending, assignedTs := none, servedTs := none }] } := by
  have h := playerCall_ignores_requester worldNpcCall 3 Dir.up "NPC-2" 5000 "b"
  have hex : ∃ c ∈ worldNpcCall.calls,
      liveS c.status = true ∧ c.floor = 3 ∧ c.dir = Dir.up := by decide
  have hall : ∀ c ∈ worldNpcCall.calls,
      liveS c.status = true → c.floor = 3 → c.dir = Dir.up → c.who ≠ "NPC-2" := by
    decide
  exact ⟨(h.1 hex).1, (h.1 hex).2, h.2 hall⟩

/-- C7: `deserialize(serialize(w))` reproduces the derived current
floor, the door state (`doorsOpen` and `doorProgress`), the load, the
occupancy flag, and the entire call list (hence every call's status);
timestamp fields are not part of the contract.  The elevator is rebuilt
with the configuration's floor height, so the derived floor agrees when
the world's elevator uses that same height (always true in-session). -/
theorem serialize_roundtrip (cfg : Cfg) (w : World) (now now2 : ℚ)
    (npcDelay fresh : ℕ → ℚ)
    (hfh : w.elev.floorHeight = cfg.floorHeightMeters) :
    (World.deserialize cfg (w.serialize now) now2 npcDelay fresh).elev.metersToFloor
        (World.deserialize cfg (w.serialize now) now2 npcDelay fresh).elev.position
      = w.elev.metersToFloor w.elev.position ∧
    (World.deserialize cfg (w.serialize now) now2 npcDelay fresh).elev.doorsOpen
      = w.elev.doorsOpen ∧
    (World.deserialize cfg (w.serialize now) now2 npcDelay fresh).elev.doorProgress
      = w.elev.doorProgress ∧
    (World.deserialize cfg (w.serialize now) now2 npcDelay fresh).elev.loadKg
      = w.elev.loadKg ∧
    (World.deserialize cfg (w.serialize now) now2 npcDelay fresh).elev.playerInside
      = w.elev.playerInside ∧
    (World.deserialize cfg (w.serialize now) now2 npcDelay fresh).calls = w.calls := by
  refine ⟨?_, rfl, rfl, rfl, rfl, rfl⟩
  show Elevator.metersToFloor _ _ = _
  unfold Elevator.metersToFloor
  show round ((w.serialize now).elev.pos / (Elevator.init cfg cfg.floors cfg.initialFloor).floorHeight) = _
  unfold World.serialize Elevator.serialize
  dsimp only
  rw [hfh]
  rfl

/-- C7 witness: the round trip at a world with a loaded, occupied,
mid-shaft cabin and a mixed call list. -/
theorem serialize_roundtrip_witness :
    (World.deserialize defaultCFG (worldRich.serialize 42) 99 (fun _ => 1)
        (fun _ => 2)).elev.metersToFloor
        (World.deserialize defaultCFG (worldRich.serialize 42) 99 (fun _ => 1)
          (fun _ => 2)).elev.position
      = worldRich.elev.metersToFloor worldRich.elev.position ∧
    (World.deserialize defaultCFG (worldRich.serialize 42) 99 (fun _ => 1)
        (fun _ => 2)).elev.doorsOpen = worldRich.elev.doorsOpen ∧
    (World.deserialize defaultCFG (worldRich.serialize 42) 99 (fun _ => 1)
        (fun _ => 2)).elev.doorProgress = worldRich.elev.doorProgress ∧
    (World.deserialize defaultCFG (worldRich.serialize 42) 99 (fun _ => 1)
        (fun _ => 2)).elev.loadKg = worldRich.elev.loadKg ∧
    (World.deserialize defaultCFG (worldRich.serialize 42) 99 (fun _ => 1)
        (fun _ => 2)).elev.playerInside = worldRich.elev.playerInside ∧
    (World.deserialize defaultCFG (worldRich.serialize 42) 99 (fun _ => 1)
        (fun _ => 2)).calls = worldRich.calls :=
  serialize_roundtrip defaultCFG worldRich 42 99 (fun _ => 1) (fun _ => 2) rfl

/-- Evaluation of the C8 counterexample state: one 1/60 s tick from
"doors just opened, target floor 5" runs the motion controller (the
door progress 13/540 is still below the 0.05 interlock threshold). -/
theorem elevDoorOpenAccel_eq : elevDoorOpenAccel = { Elevator.init defaultCFG 18 0 with
    targetFloor := some 5, doorsOpen := true, state := EState.MOVING, arrivalTs := 0,
    doorProgress := 13/540, acceleration := 3/2, velocity := 1/40, position := 1/2400 } := by
  norm_num [elevDoorOpenAccel, Elevator.step, Elevator.doorPhase, Elevator.popNextTarget,
    Elevator.motionAccel, Elevator.openDoors, Elevator.requestFloor, Elevator.init,
    Elevator.floorToMeters, Elevator.metersToFloor, clamp, iclamp, qsign, jsOr, defaultCFG,
    firstMinIdx, firstMinGo]
  rw [if_neg (by decide : ¬ (EState.DOOR_OPEN = EState.EMERGENCY))]

/-- C8 (amended): after any tick from a reachable state, whenever the
doors are open with `doorProgress > 0.05` the cabin is not moving
(velocity and acceleration are zero).  The original claim's stronger
invariants fail: `targetFloor` can be non-null with an empty queue while
idle or doors open (requests set the target immediately), and with the
doors open at `doorProgress ≤ 0.05` a tick can assign nonzero
acceleration toward the target. -/
theorem door_open_no_motion_after_step (cfg : Cfg) (e : Elevator) (dt now : ℚ)
    (h : EReach cfg e) :
    (Elevator.step cfg e dt now).1.doorsOpen = true →
    0.05 < (Elevator.step cfg e dt now).1.doorProgress →
    (Elevator.step cfg e dt now).1.velocity = 0 ∧
    (Elevator.step cfg e dt now).1.acceleration = 0 := by
  have h6 := (EInv_of_EReach h).2.2.2.2.2
  obtain ⟨hp1, hp2, hp3, hp4, hp5⟩ := popNextTarget_fields (e.doorPhase dt)
  unfold Elevator.step
  dsimp only
  rw [if_neg (by rw [doorPhase_state]; exact h6)]
  split_ifs with hD
  · exact fun _ _ => ⟨rfl, rfl⟩
  all_goals try (split)
  all_goals try (split)
  all_goals try (unfold Elevator.openDoors)
  all_goals try split_ifs
  all_goals dsimp only
  all_goals intro hopen hprog
  all_goals try exact ⟨rfl, rfl⟩
  all_goals exact absurd ⟨by simp_all, by simp_all⟩ hD

/-- C8 counterexample: a reachable state (request floor 5 while idle,
open the doors, run one tick) that is simultaneously doors-open with an
empty queue, a non-null target floor, and nonzero acceleration toward
that target. -/
theorem door_target_invariant_cex :
    EReach defaultCFG elevDoorOpenAccel ∧
    elevDoorOpenAccel.doorsOpen = true ∧
    elevDoorOpenAccel.queue = [] ∧
    elevDoorOpenAccel.targetFloor = some 5 ∧
    elevDoorOpenAccel.acceleration ≠ 0 := by
  refine ⟨?_, ?_, ?_, ?_, ?_⟩
  · exact EReach.step (1/60) 0 (by norm_num)
      (EReach.openDoors 0 (EReach.requestFloor 5 (EReach.init 18 0)))
  · rw [elevDoorOpenAccel_eq]
  · rw [elevDoorOpenAccel_eq]
    rfl
  · rw [elevDoorOpenAccel_eq]
  · rw [elevDoorOpenAccel_eq]
    norm_num

/-- C8 (amended) witness: after a tick at the jammed-open elevator
(doors open, progress 1 > 0.05) the cabin has zero velocity and zero
acceleration. -/
theorem door_open_no_motion_after_step_witness :
    (Elevator.step defaultCFG elevJammedOpen (1/60) 0).1.velocity = 0 ∧
    (Elevator.step defaultCFG elevJammedOpen (1/60) 0).1.acceleration = 0 :=
  door_open_no_motion_after_step defaultCFG elevJammedOpen (1/60) 0
    (EReach.doorJam 10 true (by norm_num) (EReach.init 18 0))
    (by norm_num [Elevator.step, Elevator.doorPhase, elevJammedOpen, Elevator.doorJam,
          Elevator.init, clamp, defaultCFG])
    (by norm_num [Elevator.step, Elevator.doorPhase, elevJammedOpen, Elevator.doorJam,
          Elevator.init, clamp, defaultCFG])

/-- C9 (amended): the trigger cap is enforced per fixed tracking window
anchored at the window's `start`, not per rolling window: along any run
of calls whose timestamps stay within 60 s of the current window start
(so no reset occurs), the number of `true` results plus the window's
current count never exceeds the cap of 6.  A rolling 60-second interval
that straddles a window reset can see more than 6 triggers. -/
theorem trigger_cap_per_window (s : TrigState) (tr : List (ℚ × Bool))
    (hcap : s.cap = 6) (hcount : s.count ≤ 6)
    (htimes : ∀ p ∈ tr, p.1 - s.start ≤ 60000) :
    ((runTrigger s tr).2.filter (fun p => p.2)).length + s.count ≤ 6 := by
  induction tr generalizing s with
  | nil =>
    show (List.filter (fun p => p.2) []).length + s.count ≤ 6
    simpa using hcount
  | cons p rest ih =>
    obtain ⟨tnow, hit⟩ := p
    have hno : ¬ (60000 < tnow - s.start) :=
      not_lt.mpr (htimes (tnow, hit) (List.mem_cons_self _ _))
    have htr : ∀ q ∈ rest, q.1 - s.start ≤ 60000 :=
      fun q hq => htimes q (List.mem_cons_of_mem _ hq)
    unfold runTrigger TrigState.shouldTriggerEvent
    dsimp only
    rw [if_neg hno]
    by_cases hfull : s.cap ≤ s.count
    · rw [if_pos hfull]
      dsimp only
      rw [List.filter_cons_of_neg (by simp)]
      exact ih s hcap hcount htr
    · rw [if_neg hfull]
      by_cases hhit : hit = true
      · rw [if_pos hhit]
        dsimp only
        rw [List.filter_cons_of_pos (by simp)]
        have hcount2 : ({ s with count := s.count + 1 } : TrigState).count ≤ 6 := by
          have hlt : s.count < 6 := by
            rw [hcap] at hfull
            omega
          show s.count + 1 ≤ 6
          omega
        have := ih { s with count := s.count + 1 } (by simp; exact hcap) hcount2
          (by simpa using htr)
        simp only [List.length_cons]
        simp only [TrigState.mk.injEq] at this ⊢
        omega
      · rw [if_neg hhit]
        dsimp only
        rw [List.filter_cons_of_neg (by simp [hhit])]
        exact ih s hcap hcount htr

/-- C9 counterexample: a trace of seven Bernoulli hits whose timestamps
all lie inside one rolling 60-second interval (in fact within 1001 ms)
on which `shouldTriggerEvent` returns `true` seven times — the fixed
window resets between the sixth and seventh call, defeating the claimed
rolling-window cap of 6. -/
theorem trigger_rolling_window_cex :
    ((runTrigger { start := 0, count := 0, cap := 6 } trigTrace7).2.filter
        (fun p => p.2)).length = 7 ∧
    (∀ p ∈ trigTrace7, 59000 ≤ p.1 ∧ p.1 ≤ 59000 + 60000) ∧
    7 > 6 := by
  refine ⟨?_, ?_, by norm_num⟩
  · norm_num [trigTrace7, runTrigger, TrigState.shouldTriggerEvent]
  · intro p hp
    simp only [trigTrace7, List.mem_cons] at hp
    rcases hp with rfl | rfl | rfl | rfl | rfl | rfl | rfl | h
    · constructor <;> norm_num
    · constructor <;> norm_num
    · constructor <;> norm_num
    · constructor <;> norm_num
    · constructor <;> norm_num
    · constructor <;> norm_num
    · constructor <;> norm_num
    · simp at h

/-- C9 (amended) witness: two hits early in a fresh window both trigger
and stay under the cap. -/
theorem trigger_cap_per_window_witness :
    ((runTrigger { start := 0, count := 0, cap := 6 }
        [((1000 : ℚ), true), (2000, true)]).2.filter (fun p => p.2)).length
      + (0 : ℕ) ≤ 6 :=
  trigger_cap_per_window { start := 0, count := 0, cap := 6 }
    [((1000 : ℚ), true), (2000, true)] rfl (by norm_num)
    (by intro p hp
        rcases List.mem_cons.mp hp with rfl | hp2
        · norm_num
        · rcases List.mem_cons.mp hp2 with rfl | hp3
          · norm_num
          · simp at hp3)
